import Mathlib

/-!
Verification of `awslimitchecker/trustedadvisor.py` (class `TrustedAdvisor`).

The Python module is shallowly embedded: Python dicts become association
lists with Python-dict semantics (lookup of the stored key, in-place
overwrite on duplicate insert, append of fresh keys at the end), the
advisory API responses become explicit inputs, and Python exceptions become
an `Except PyErr` result.  Logger calls that carry per-entry data (the
critical "unknown service" and warning "unknown limit" diagnostics of
`_update_services`) are modelled as an emitted log list; constant
debug/info lines carry no data and are omitted.
-/

/-- Python exception classes that can arise in the embedded code paths. -/
inductive PyErr
  | valueError
  | keyError
  | attributeError
  | typeError
deriving DecidableEq, Repr

/-- Python `d[k]` / `k in d` lookup on an association list with
dict semantics: the first binding of the key wins (a well-formed dict has
unique keys). -/
def dictLookup {α : Type} : List (String × α) → String → Option α
  | [], _ => none
  | (k', v) :: rest, k => if k' = k then some v else dictLookup rest k

/-- Python `d[k] = v`: overwrite in place if the key is present, otherwise
append the new binding at the end (dict insertion order). -/
def dictInsert {α : Type} : List (String × α) → String → α → List (String × α)
  | [], k, v => [(k, v)]
  | (k', v') :: rest, k, v =>
    if k' = k then (k', v) :: rest else (k', v') :: dictInsert rest k v

/-- Python `d.keys()` in insertion order. -/
def dictKeys {α : Type} (d : List (String × α)) : List String :=
  d.map Prod.fst

/-- Python `dict(pairs)` (e.g. `dict(zip(fields, values))`): left-to-right
insertion, later duplicates overwrite earlier ones. -/
def pyDict {α : Type} (pairs : List (String × α)) : List (String × α) :=
  pairs.foldl (fun d p => dictInsert d p.1 p.2) []

/-- Lexicographic `≤` on char lists by code points: the order Python uses
to compare strings. -/
def charListLe : List Char → List Char → Bool
  | [], _ => true
  | _ :: _, [] => false
  | a :: as, b :: bs =>
    if a < b then true else if b < a then false else charListLe as bs

/-- Python string `≤`: code-point lexicographic comparison. -/
def strLe (a b : String) : Bool :=
  charListLe a.data b.data

/-- Python `sorted(keys)` on strings: stable sort into ascending
lexicographic order. -/
def sortStr (l : List String) : List String :=
  List.insertionSort (fun a b => strLe a b) l

/-- Decimal value of a digit list, most significant first. -/
def digitsToNat (ds : List Char) : Nat :=
  ds.foldl (fun n c => 10 * n + (c.toNat - '0'.toNat)) 0

/-- Python `int(s)` on the decimal integer strings the advisory API
returns: an optional sign followed by digits; any other string raises
`ValueError`, modelled as `none` (Python's whitespace/underscore
tolerance is not exercised by this data and is not modelled). -/
def pyInt (s : String) : Option Int :=
  match s.data with
  | '-' :: ds =>
    if ds ≠ [] ∧ ds.all Char.isDigit then some (-(digitsToNat ds : Int)) else none
  | '+' :: ds =>
    if ds ≠ [] ∧ ds.all Char.isDigit then some (digitsToNat ds) else none
  | ds =>
    if ds ≠ [] ∧ ds.all Char.isDigit then some (digitsToNat ds) else none

/-- One entry of `describe_trusted_advisor_checks(...)['checks']`:
`{'id': ..., 'category': ..., 'name': ..., 'metadata': [...]}`. -/
structure TACheck where
  id : String
  category : String
  name : String
  metadata : List String
deriving DecidableEq, Repr

/-- One entry of `checks['result']['flaggedResources']`: a region tag and
the positional metadata value list. -/
structure FlaggedResource where
  region : String
  metadata : List String
deriving DecidableEq, Repr

/-- `TrustedAdvisor._poll`'s result shape: service name -> limit name ->
numeric limit. -/
abbrev LimitUpdateMap := List (String × List (String × Int))

/-- `TrustedAdvisor._get_limit_check_id`: linear scan of the available
checks, returning the id and metadata of the first check whose category is
`'performance'` and whose name is `'Service Limits'`; `None` if no check
matches. -/
def get_limit_check_id : List TACheck → Option (String × List String)
  | [] => none
  | c :: rest =>
    if c.category = "performance" ∧ c.name = "Service Limits" then
      some (c.id, c.metadata)
    else
      get_limit_check_id rest

/-- The body of `_poll`'s loop for one flagged resource, minus the region
check: `data = dict(zip(metadata, check['metadata']))`, then the
`'Service'`, `'Limit Amount'` (with `int(...)`) and `'Limit Name'` lookups
in Python evaluation order, each failed dict lookup a `KeyError` and a
failed `int(...)` a `ValueError`. -/
def projectRow (fields : List String) (row : FlaggedResource) :
    Except PyErr (String × String × Int) :=
  let data := pyDict (List.zip fields row.metadata)
  match dictLookup data "Service" with
  | none => .error .keyError
  | some svc =>
    match dictLookup data "Limit Amount" with
    | none => .error .keyError
    | some amtStr =>
      match pyInt amtStr with
      | none => .error .valueError
      | some amt =>
        match dictLookup data "Limit Name" with
        | none => .error .keyError
        | some lim => .ok (svc, lim, amt)

/-- `if data['Service'] not in res: res[data['Service']] = {}` followed by
`res[data['Service']][data['Limit Name']] = int(data['Limit Amount'])`. -/
def insert2 (res : LimitUpdateMap) (svc lim : String) (amt : Int) :
    LimitUpdateMap :=
  let inner := (dictLookup res svc).getD []
  dictInsert res svc (dictInsert inner lim amt)

/-- The `for check in checks['result']['flaggedResources']` loop of
`_poll`: skip rows whose region differs from the session region, project
the rest and insert them into the accumulating map; exceptions
propagate. -/
def pollRows (fields : List String) (region : String) :
    List FlaggedResource → LimitUpdateMap → Except PyErr LimitUpdateMap
  | [], res => .ok res
  | row :: rest, res =>
    if row.region = region then
      match projectRow fields row with
      | .error e => .error e
      | .ok (svc, lim, amt) =>
        pollRows fields region rest (insert2 res svc lim amt)
    else
      pollRows fields region rest res

/-- `TrustedAdvisor._poll`, with the advisory API's responses (the check
list, the session region and the flagged resources of the located check)
as explicit inputs.  When `_get_limit_check_id` returns `None` the method
logs at critical severity and returns `None`; otherwise it builds the
two-level map.  The result timestamp is only parsed for a debug log line
and is not modelled. -/
def poll (checks : List TACheck) (region : String)
    (flagged : List FlaggedResource) : Except PyErr (Option LimitUpdateMap) :=
  match get_limit_check_id checks with
  | none => .ok none
  | some (_, fields) => (pollRows fields region flagged []).map some

/-- Modelled from the spec: the `_AwsService` collaborator lives outside
`src/` (only `trustedadvisor.py` is given).  Spec §3 gives it one
capability, `setAdvisoryLimit(limitName, value)`, which "fails with
UnknownLimitError if limitName is not recognized by this service" — in the
Python code that failure is the `ValueError` caught by
`_update_services`.  Spec §9 notes the capability distinguishes
`UnknownLimit` from "other failure kinds", so the model carries an explicit
outcome table per limit name: a name absent from the table is
unrecognized (UnknownLimitError, i.e. `ValueError`), and a table entry can
accept the value or raise an arbitrary exception class. -/
inductive SetOutcome
  | accept
  | raise (e : PyErr)
deriving DecidableEq, Repr

/-- Modelled from the spec: the state and behavior of one `_AwsService`
object — its per-limit outcome table and the advisory limit values applied
so far (`_set_ta_limit` mutates the object in place). -/
structure Service where
  outcomes : List (String × SetOutcome)
  taLimits : List (String × Int)
deriving DecidableEq, Repr

/-- Modelled from the spec: `service._set_ta_limit(lim_name, value)` —
accept and record the value, or raise; an unrecognized limit name raises
`ValueError` (UnknownLimitError). -/
def Service.setTaLimit (s : Service) (lim : String) (v : Int) :
    Except PyErr Service :=
  match dictLookup s.outcomes lim with
  | some .accept => .ok { s with taLimits := dictInsert s.taLimits lim v }
  | some (.raise e) => .error e
  | none => .error .valueError

/-- The `services` argument of `update_limits`: service name -> Service. -/
abbrev Registry := List (String × Service)

/-- The data-carrying diagnostics `_update_services` emits. -/
inductive LogEntry
  | criticalUnknownService (svc : String)
  | warningUnknownLimit (lim : String) (svc : String)
deriving DecidableEq, Repr

/-- The inner `for lim_name in sorted(limits.keys())` loop of
`_update_services`, over an explicit key list: each `_set_ta_limit` call is
wrapped in `try/except ValueError`; a caught `ValueError` logs a warning
and continues, any other exception propagates (the partially mutated
registry at that point is not observed by the caller and is not
modelled). -/
def applyLimits (svcName : String) (service : Service)
    (limits : List (String × Int)) :
    List String → Except PyErr Service × List LogEntry
  | [] => (.ok service, [])
  | lim :: rest =>
    match service.setTaLimit lim ((dictLookup limits lim).getD 0) with
    | .ok s' => applyLimits svcName s' limits rest
    | .error .valueError =>
      let r := applyLimits svcName service limits rest
      (r.1, .warningUnknownLimit lim svcName :: r.2)
    | .error e => (.error e, [])

/-- The outer `for svc_name in sorted(ta_results.keys())` loop of
`_update_services`, over an explicit service-name list: an unknown service
logs a critical diagnostic and is skipped; a known one has its limits
applied in sorted order and its (mutated-in-place) object stored back. -/
def goServices (ta : LimitUpdateMap) :
    List String → Registry → Except PyErr Registry × List LogEntry
  | [], services => (.ok services, [])
  | svc :: rest, services =>
    let limits := (dictLookup ta svc).getD []
    match dictLookup services svc with
    | none =>
      let r := goServices ta rest services
      (r.1, .criticalUnknownService svc :: r.2)
    | some service =>
      match applyLimits svc service limits (sortStr (dictKeys limits)) with
      | (.ok s', logs1) =>
        let r := goServices ta rest (dictInsert services svc s')
        (r.1, logs1 ++ r.2)
      | (.error e, logs1) => (.error e, logs1)

/-- `TrustedAdvisor._update_services(ta_results, services)` for a dict
`ta_results`. -/
def update_services (ta : LimitUpdateMap) (services : Registry) :
    Except PyErr Registry × List LogEntry :=
  goServices ta (sortStr (dictKeys ta)) services

/-- `_update_services` as actually called by `update_limits`, where
`ta_results` may be the `None` returned by `_poll`: in that case
`sorted(ta_results.keys())` raises `AttributeError` (`None` has no
`keys`). -/
def update_services_py (ta : Option LimitUpdateMap) (services : Registry) :
    Except PyErr Registry × List LogEntry :=
  match ta with
  | none => (.error .attributeError, [])
  | some m => update_services m services

/-- `TrustedAdvisor.update_limits(services)`:
`self.connect(); ta_results = self._poll();
self._update_services(ta_results, services)`.  `connect` only touches the
session handle and is modelled separately (`TAState`/`connect`); an
exception in `_poll` propagates before `_update_services` runs. -/
def update_limits (checks : List TACheck) (region : String)
    (flagged : List FlaggedResource) (services : Registry) :
    Except PyErr Registry × List LogEntry :=
  match poll checks region flagged with
  | .error e => (.error e, [])
  | .ok ta => update_services_py ta services

/-- The session-handle state of a `TrustedAdvisor` object: `self.conn`,
generic in the session type. -/
structure TAState (σ : Type) where
  conn : Option σ

/-- `TrustedAdvisor.__init__`: `self.conn = None`. -/
def TAInit (σ : Type) : TAState σ :=
  ⟨none⟩

/-- `TrustedAdvisor.connect`: establish a session only if none exists.
`estab` is the session `boto.connect_support()` would return; the second
component counts the underlying session-establishment calls this
invocation performs. -/
def connect {σ : Type} (estab : σ) (s : TAState σ) : TAState σ × Nat :=
  match s.conn with
  | none => (⟨some estab⟩, 1)
  | some c => (⟨some c⟩, 0)

/-- Two successive `connect()` calls, with the total number of underlying
session-establishment calls performed. -/
def connectTwice {σ : Type} (estab : σ) (s : TAState σ) : TAState σ × Nat :=
  let r1 := connect estab s
  let r2 := connect estab r1.1
  (r2.1, r1.2 + r2.2)

/-- Lookup in the two-level map: `res[svc][lim]` as an optional value. -/
def lookup2 (res : LimitUpdateMap) (svc lim : String) : Option Int :=
  (dictLookup res svc).bind (fun d => dictLookup d lim)

/-! ### Order lemmas for `strLe` and `sortStr` -/

theorem charListLe_not_lex : ∀ (as bs : List Char),
    charListLe as bs = true ↔ ¬ List.Lex (· < ·) bs as
  | [], bs => by
    simp [charListLe, List.Lex.not_nil_right]
  | a :: as, [] => by
    simp [charListLe]
    exact List.Lex.nil
  | a :: as, b :: bs => by
    rcases lt_trichotomy a b with h | h | h
    · simp only [charListLe, if_pos h, true_iff]
      intro hlex
      cases hlex with
      | cons _ => exact lt_irrefl a h
      | rel h' => exact absurd h (asymm h')
    · subst h
      simp only [charListLe, if_neg (lt_irrefl a)]
      rw [List.Lex.cons_iff]
      exact charListLe_not_lex as bs
    · simp only [charListLe, if_neg (asymm h), if_pos h, Bool.false_eq_true,
        false_iff, not_not]
      exact List.Lex.rel h

theorem charListLe_iff (as bs : List Char) : charListLe as bs = true ↔ as ≤ bs := by
  rw [← not_lt]
  exact charListLe_not_lex as bs

/-- `strLe` agrees with the lexicographic linear order on strings. -/
theorem strLe_iff (a b : String) : strLe a b = true ↔ a ≤ b := by
  rw [String.le_iff_toList_le]
  exact charListLe_iff a.data b.data

def strLeTotal : IsTotal String (fun a b => strLe a b = true) :=
  ⟨fun a b => by rw [strLe_iff, strLe_iff]; exact le_total a b⟩

def strLeTrans : IsTrans String (fun a b => strLe a b = true) :=
  ⟨fun a b c hab hbc => by
    rw [strLe_iff] at hab hbc ⊢
    exact le_trans hab hbc⟩

/-- `sortStr` output is sorted in ascending lexicographic order. -/
theorem sortStr_sorted (l : List String) : (sortStr l).Sorted (· ≤ ·) := by
  have h := @List.sorted_insertionSort String (fun a b => strLe a b = true) _
    strLeTotal strLeTrans l
  exact h.imp (fun hab => (strLe_iff _ _).mp hab)

/-- `sortStr` output is a permutation of its input. -/
theorem sortStr_perm (l : List String) : (sortStr l).Perm l :=
  List.perm_insertionSort _ l

/-- `sortStr` depends only on the multiset of keys, not their order. -/
theorem sortStr_eq_of_perm {l1 l2 : List String} (h : l1.Perm l2) :
    sortStr l1 = sortStr l2 :=
  List.eq_of_perm_of_sorted (((sortStr_perm l1).trans h).trans (sortStr_perm l2).symm)
    (sortStr_sorted l1) (sortStr_sorted l2)

/-! ### Dict, poll and reconciler lemmas -/

theorem dictLookup_dictInsert_self {α : Type} :
    ∀ (d : List (String × α)) (k : String) (v : α),
    dictLookup (dictInsert d k v) k = some v
  | [], k, v => by simp [dictInsert, dictLookup]
  | (k', v') :: rest, k, v => by
    by_cases h : k' = k
    · simp [dictInsert, dictLookup, h]
    · simp only [dictInsert, if_neg h, dictLookup, if_neg h]
      exact dictLookup_dictInsert_self rest k v

theorem dictLookup_dictInsert_ne {α : Type} :
    ∀ (d : List (String × α)) (k k' : String) (v : α), k' ≠ k →
    dictLookup (dictInsert d k v) k' = dictLookup d k'
  | [], k, k', v, h => by
    simp only [dictInsert, dictLookup]
    rw [if_neg (Ne.symm h)]
  | (k0, v0) :: rest, k, k', v, h => by
    by_cases h0 : k0 = k
    · subst h0
      have hk : ¬ k0 = k' := fun hh => h hh.symm
      simp only [dictInsert, if_pos rfl, dictLookup]
      rw [if_neg hk, if_neg hk]
    · simp only [dictInsert, if_neg h0, dictLookup]
      by_cases h1 : k0 = k'
      · simp [h1]
      · rw [if_neg h1, if_neg h1]
        exact dictLookup_dictInsert_ne rest k k' v h

theorem lookup2_insert2_self (res : LimitUpdateMap) (svc lim : String) (amt : Int) :
    lookup2 (insert2 res svc lim amt) svc lim = some amt := by
  simp [lookup2, insert2, dictLookup_dictInsert_self]

theorem lookup2_insert2_ne (res : LimitUpdateMap) (svc lim : String) (amt : Int)
    (svc' lim' : String) (h : ¬(svc' = svc ∧ lim' = lim)) :
    lookup2 (insert2 res svc lim amt) svc' lim' = lookup2 res svc' lim' := by
  by_cases hs : svc' = svc
  · subst hs
    have hl : lim' ≠ lim := fun hh => h ⟨rfl, hh⟩
    unfold lookup2 insert2
    rw [dictLookup_dictInsert_self]
    cases hres : dictLookup res svc' with
    | none => simp [hres, dictLookup, dictInsert, Ne.symm hl]
    | some d => simp [hres, dictLookup_dictInsert_ne _ _ _ _ hl]
  · simp only [lookup2, insert2]
    rw [dictLookup_dictInsert_ne _ _ _ _ hs]

theorem pollRows_append (fields : List String) (region : String) :
    ∀ (l1 l2 : List FlaggedResource) (res : LimitUpdateMap),
    pollRows fields region (l1 ++ l2) res =
      match pollRows fields region l1 res with
      | .ok m => pollRows fields region l2 m
      | .error e => .error e
  | [], l2, res => rfl
  | row :: rest, l2, res => by
    by_cases hr : row.region = region
    · rw [List.cons_append, pollRows, pollRows, if_pos hr, if_pos hr]
      cases hp : projectRow fields row with
      | error e => rfl
      | ok t =>
        obtain ⟨svc, lim, amt⟩ := t
        exact pollRows_append fields region rest l2 (insert2 res svc lim amt)
    · rw [List.cons_append, pollRows, pollRows, if_neg hr, if_neg hr]
      exact pollRows_append fields region rest l2 res

theorem pollRows_region_filter (fields : List String) (region : String) :
    ∀ (rows : List FlaggedResource) (res : LimitUpdateMap),
    pollRows fields region rows res =
      pollRows fields region (rows.filter (fun r => r.region == region)) res
  | [], res => rfl
  | row :: rest, res => by
    by_cases hr : row.region = region
    · rw [List.filter_cons_of_pos (by simpa using hr), pollRows, pollRows,
        if_pos hr, if_pos hr]
      cases hp : projectRow fields row with
      | error e => rfl
      | ok t =>
        obtain ⟨svc, lim, amt⟩ := t
        exact pollRows_region_filter fields region rest (insert2 res svc lim amt)
    · rw [List.filter_cons_of_neg (by simpa using hr), pollRows, if_neg hr]
      exact pollRows_region_filter fields region rest res

theorem pollRows_lookup2_preserved (fields : List String) (region : String)
    (svc lim : String) :
    ∀ (suf : List FlaggedResource) (m m' : LimitUpdateMap),
    pollRows fields region suf m = .ok m' →
    (∀ r ∈ suf, r.region = region →
      ∀ s l b, projectRow fields r = .ok (s, l, b) → ¬(s = svc ∧ l = lim)) →
    lookup2 m' svc lim = lookup2 m svc lim
  | [], m, m', h, _ => by
    cases h
    rfl
  | row :: rest, m, m', h, hav => by
    by_cases hr : row.region = region
    · rw [pollRows, if_pos hr] at h
      cases hp : projectRow fields row with
      | error e => rw [hp] at h; cases h
      | ok t =>
        obtain ⟨s, l, b⟩ := t
        rw [hp] at h
        have hrec := pollRows_lookup2_preserved fields region svc lim rest _ m' h
          (fun r hrr => hav r (List.mem_cons_of_mem row hrr))
        rw [hrec]
        exact lookup2_insert2_ne m s l b svc lim
          (fun hh => hav row (List.mem_cons_self row rest) hr s l b hp ⟨hh.1.symm, hh.2.symm⟩)
    · rw [pollRows, if_neg hr] at h
      exact pollRows_lookup2_preserved fields region svc lim rest m m' h
        (fun r hrr => hav r (List.mem_cons_of_mem row hrr))

theorem get_limit_check_id_first :
    ∀ (pre : List TACheck) (c : TACheck) (post : List TACheck),
    (∀ x ∈ pre, ¬(x.category = "performance" ∧ x.name = "Service Limits")) →
    c.category = "performance" → c.name = "Service Limits" →
    get_limit_check_id (pre ++ c :: post) = some (c.id, c.metadata)
  | [], c, post, _, h1, h2 => by
    rw [List.nil_append, get_limit_check_id, if_pos ⟨h1, h2⟩]
  | x :: pre, c, post, h, h1, h2 => by
    rw [List.cons_append, get_limit_check_id,
      if_neg (h x (List.mem_cons_self x pre))]
    exact get_limit_check_id_first pre c post
      (fun y hy => h y (List.mem_cons_of_mem x hy)) h1 h2

theorem get_limit_check_id_none :
    ∀ (checks : List TACheck),
    (∀ x ∈ checks, ¬(x.category = "performance" ∧ x.name = "Service Limits")) →
    get_limit_check_id checks = none
  | [], _ => rfl
  | c :: rest, h => by
    rw [get_limit_check_id, if_neg (h c (List.mem_cons_self c rest))]
    exact get_limit_check_id_none rest (fun x hx => h x (List.mem_cons_of_mem c hx))

theorem pollRows_retained_step (fields : List String) (region : String)
    (vals : List String) (rest : List FlaggedResource) (res : LimitUpdateMap)
    (svc lim amtStr : String) (amt : Int)
    (hs : dictLookup (pyDict (List.zip fields vals)) "Service" = some svc)
    (hl : dictLookup (pyDict (List.zip fields vals)) "Limit Name" = some lim)
    (ha : dictLookup (pyDict (List.zip fields vals)) "Limit Amount" = some amtStr)
    (hi : pyInt amtStr = some amt) :
    pollRows fields region (⟨region, vals⟩ :: rest) res =
      pollRows fields region rest (insert2 res svc lim amt) := by
  rw [pollRows, if_pos rfl]
  have hproj : projectRow fields ⟨region, vals⟩ = .ok (svc, lim, amt) := by
    simp only [projectRow, hs, hl, ha, hi]
  rw [hproj]

theorem dictLookup_isSome_dictInsert {α : Type} (d : List (String × α))
    (k k' : String) (v : α) (hk : (dictLookup d k).isSome = true) :
    (dictLookup (dictInsert d k v) k').isSome = (dictLookup d k').isSome := by
  by_cases h : k' = k
  · subst h
    rw [dictLookup_dictInsert_self]
    exact (Option.isSome_some).trans hk.symm
  · rw [dictLookup_dictInsert_ne _ _ _ _ h]

theorem goServices_filter (ta : LimitUpdateMap) :
    ∀ (names : List String) (services : Registry),
    (goServices ta names services).1 =
      (goServices ta (names.filter (fun k => (dictLookup services k).isSome))
        services).1
  | [], services => rfl
  | svc :: rest, services => by
    cases hsvc : dictLookup services svc with
    | none =>
      rw [List.filter_cons_of_neg (by simp [hsvc])]
      simp only [goServices, hsvc]
      exact goServices_filter ta rest services
    | some service =>
      rw [List.filter_cons_of_pos (by simp [hsvc])]
      simp only [goServices, hsvc]
      cases happly : applyLimits svc service ((dictLookup ta svc).getD [])
          (sortStr (dictKeys ((dictLookup ta svc).getD []))) with
      | mk fst logs1 =>
        cases fst with
        | ok s' =>
          simp only []
          have hcongr : rest.filter (fun k => (dictLookup services k).isSome) =
              rest.filter (fun k => (dictLookup (dictInsert services svc s') k).isSome) := by
            apply List.filter_congr
            intro x _
            rw [dictLookup_isSome_dictInsert services svc x s' (by simp [hsvc])]
          rw [hcongr]
          exact goServices_filter ta rest (dictInsert services svc s')
        | error e => rfl

theorem goServices_logs_unknown (ta : LimitUpdateMap) :
    ∀ (names : List String) (services : Registry) (r : Registry),
    (goServices ta names services).1 = .ok r →
    ∀ svc ∈ names, dictLookup services svc = none →
    LogEntry.criticalUnknownService svc ∈ (goServices ta names services).2
  | [], _, _, _, svc, hmem, _ => absurd hmem (List.not_mem_nil svc)
  | svc0 :: rest, services, r, hok, svc, hmem, hnone => by
    cases hsvc0 : dictLookup services svc0 with
    | none =>
      simp only [goServices, hsvc0] at hok ⊢
      rcases List.mem_cons.mp hmem with heq | hmem'
      · subst heq
        exact List.mem_cons_self _ _
      · exact List.mem_cons_of_mem _
          (goServices_logs_unknown ta rest services r hok svc hmem' hnone)
    | some service0 =>
      have hne : svc ≠ svc0 := by
        intro heq
        rw [heq, hsvc0] at hnone
        cases hnone
      have hmem' : svc ∈ rest := by
        rcases List.mem_cons.mp hmem with heq | hmem'
        · exact absurd heq hne
        · exact hmem'
      simp only [goServices, hsvc0] at hok ⊢
      cases happly : applyLimits svc0 service0 ((dictLookup ta svc0).getD [])
          (sortStr (dictKeys ((dictLookup ta svc0).getD []))) with
      | mk fst logs1 =>
        rw [happly] at hok
        cases fst with
        | ok s' =>
          have hnone' : dictLookup (dictInsert services svc0 s') svc = none := by
            rw [dictLookup_dictInsert_ne _ _ _ _ hne]
            exact hnone
          exact List.mem_append_right logs1
            (goServices_logs_unknown ta rest (dictInsert services svc0 s') r hok
              svc hmem' hnone')
        | error e => exact Except.noConfusion hok

theorem applyLimits_skip_valueError (svcName : String) (service : Service)
    (limits : List (String × Int)) (lims : List String) (lim : String)
    (h : service.setTaLimit lim ((dictLookup limits lim).getD 0) = .error .valueError) :
    applyLimits svcName service limits (lim :: lims) =
      ((applyLimits svcName service limits lims).1,
        LogEntry.warningUnknownLimit lim svcName ::
          (applyLimits svcName service limits lims).2) := by
  rw [applyLimits, h]

theorem applyLimits_apply_ok (svcName : String) (service s' : Service)
    (limits : List (String × Int)) (lims : List String) (lim : String)
    (h : service.setTaLimit lim ((dictLookup limits lim).getD 0) = .ok s') :
    applyLimits svcName service limits (lim :: lims) =
      applyLimits svcName s' limits lims := by
  rw [applyLimits, h]

theorem applyLimits_propagate (svcName : String) (service : Service)
    (limits : List (String × Int)) (lims : List String) (lim : String)
    (e : PyErr) (he : e ≠ .valueError)
    (h : service.setTaLimit lim ((dictLookup limits lim).getD 0) = .error e) :
    applyLimits svcName service limits (lim :: lims) = (.error e, []) := by
  rw [applyLimits, h]
  cases e with
  | valueError => exact absurd rfl he
  | keyError => rfl
  | attributeError => rfl
  | typeError => rfl

theorem update_services_singleton_propagate (svc : String)
    (limits : List (String × Int)) (service : Service) (e : PyErr)
    (logs : List LogEntry)
    (h : applyLimits svc service limits (sortStr (dictKeys limits)) =
      (.error e, logs)) :
    (update_services [(svc, limits)] [(svc, service)]).1 = .error e := by
  have hkeys : sortStr (dictKeys [(svc, limits)]) = [svc] := rfl
  rw [update_services, hkeys]
  simp [goServices, dictLookup, h]

/-! ### The claims -/

/-- C1: the claim says that when the check locator reports "not found",
`update_limits(services)` completes without raising and without mutating
any service.  The code does the opposite: `_poll` returns `None` (despite
its docstring promising a dict), and `_update_services` then evaluates
`sorted(ta_results.keys())` on `None`, raising `AttributeError` — for
every region, flagged-resource list and registry. -/
theorem ta_C1_absent_check_raises :
    ∀ (region : String) (flagged : List FlaggedResource) (services : Registry),
    update_limits [] region flagged services = (.error .attributeError, []) :=
  fun _ _ _ => rfl

/-- C2: the check locator returns the id and metadata of the first check
in list order whose category is exactly `"performance"` and whose name is
exactly `"Service Limits"`, wherever it sits in the list; if no check
satisfies both equalities it returns the not-found sentinel (`None`). -/
theorem ta_C2_locator_first_match :
    (∀ (pre : List TACheck) (c : TACheck) (post : List TACheck),
      (∀ x ∈ pre, ¬(x.category = "performance" ∧ x.name = "Service Limits")) →
      c.category = "performance" → c.name = "Service Limits" →
      get_limit_check_id (pre ++ c :: post) = some (c.id, c.metadata)) ∧
    (∀ checks : List TACheck,
      (∀ x ∈ checks, ¬(x.category = "performance" ∧ x.name = "Service Limits")) →
      get_limit_check_id checks = none) :=
  ⟨get_limit_check_id_first, get_limit_check_id_none⟩

/-- C2 witness: a matching check in second position is found (earlier
near-misses skipped); a case-differing name does not match. -/
theorem ta_C2_locator_first_match_witness :
    get_limit_check_id
      [⟨"idA", "cost_optimizing", "Service Limits", ["f"]⟩,
       ⟨"idB", "performance", "Service Limits", ["Region", "Service"]⟩,
       ⟨"idC", "performance", "Other", []⟩] =
      some ("idB", ["Region", "Service"]) ∧
    get_limit_check_id [⟨"idD", "performance", "service limits", []⟩] = none := by
  constructor
  · exact ta_C2_locator_first_match.1
      [⟨"idA", "cost_optimizing", "Service Limits", ["f"]⟩]
      ⟨"idB", "performance", "Service Limits", ["Region", "Service"]⟩
      [⟨"idC", "performance", "Other", []⟩] (by decide) rfl rfl
  · exact ta_C2_locator_first_match.2 _ (by decide)

/-- C3: `_poll`'s row loop is insensitive to rows whose region differs
from the session's region — processing any row list equals processing only
its same-region rows, so a differing-region row never contributes to and
never changes the map. -/
theorem ta_C3_region_filtering :
    ∀ (fields : List String) (region : String) (rows : List FlaggedResource)
      (res : LimitUpdateMap),
    pollRows fields region rows res =
      pollRows fields region (rows.filter (fun r => r.region == region)) res :=
  fun fields region => pollRows_region_filter fields region

/-- C4: a retained row is zipped positionally against the check's field
names; the `Service` and `Limit Name` values become the two map keys and
the `Limit Amount` value, parsed to an integer, becomes the stored value. -/
theorem ta_C4_row_projection :
    ∀ (fields : List String) (region : String) (vals : List String)
      (rest : List FlaggedResource) (res : LimitUpdateMap)
      (svc lim amtStr : String) (amt : Int),
    dictLookup (pyDict (List.zip fields vals)) "Service" = some svc →
    dictLookup (pyDict (List.zip fields vals)) "Limit Name" = some lim →
    dictLookup (pyDict (List.zip fields vals)) "Limit Amount" = some amtStr →
    pyInt amtStr = some amt →
    pollRows fields region (⟨region, vals⟩ :: rest) res =
      pollRows fields region rest (insert2 res svc lim amt) :=
  fun fields region vals rest res svc lim amtStr amt hs hl ha hi =>
    pollRows_retained_step fields region vals rest res svc lim amtStr amt hs hl ha hi

/-- C4 witness: the spec's example row yields
`EC2 -> ("Running On-Demand Instances" -> 20)` with an integer value. -/
theorem ta_C4_row_projection_witness :
    pollRows ["Region", "Service", "Limit Name", "Limit Amount"] "us-east-1"
      [⟨"us-east-1", ["us-east-1", "EC2", "Running On-Demand Instances", "20"]⟩] [] =
      .ok [("EC2", [("Running On-Demand Instances", (20 : Int))])] := by
  rw [ta_C4_row_projection ["Region", "Service", "Limit Name", "Limit Amount"]
    "us-east-1" ["us-east-1", "EC2", "Running On-Demand Instances", "20"] [] []
    "EC2" "Running On-Demand Instances" "20" 20 (by decide) (by decide) (by decide)
    (by decide)]
  rfl

/-- C5: from the freshly constructed state (`__init__` sets
`self.conn = None`) two `connect()` calls perform exactly one underlying
session-establishment call, and `connect()` on a state that already holds
a session is a no-op that leaves the session unchanged and establishes
nothing. -/
theorem ta_C5_connect_idempotent :
    ∀ (σ : Type) (estab : σ),
    (connectTwice estab (TAInit σ)).2 = 1 ∧
    (∀ c : σ, connect estab ⟨some c⟩ = (⟨some c⟩, 0)) :=
  fun _ _ => ⟨rfl, fun _ => rfl⟩

/-- C6: a service name in the map that is absent from the registry is
skipped without raising — reconciliation of the full sorted key list gives
the same registry outcome as reconciling only the keys present in the
registry — and, whenever reconciliation completes, every unknown service
in the map has a critical diagnostic naming it in the emitted log. -/
theorem ta_C6_unknown_service_skipped :
    ∀ (ta : LimitUpdateMap) (services : Registry),
    ((update_services ta services).1 =
      (goServices ta ((sortStr (dictKeys ta)).filter
        (fun k => (dictLookup services k).isSome)) services).1) ∧
    (∀ r : Registry, (update_services ta services).1 = .ok r →
      ∀ svc ∈ dictKeys ta, dictLookup services svc = none →
      LogEntry.criticalUnknownService svc ∈ (update_services ta services).2) := by
  intro ta services
  constructor
  · exact goServices_filter ta (sortStr (dictKeys ta)) services
  · intro r hok svc hmem hnone
    exact goServices_logs_unknown ta (sortStr (dictKeys ta)) services r hok svc
      ((sortStr_perm (dictKeys ta)).mem_iff.mpr hmem) hnone

/-- C6 witness: a map with unknown `"Foo"` next to known `"EC2"` updates
`"EC2"`, returns ok, and logs the unknown-service condition for
`"Foo"`. -/
theorem ta_C6_unknown_service_skipped_witness :
    (update_services [("Foo", [("L", 3)]), ("EC2", [("GoodLim", 2)])]
        [("EC2", ⟨[("GoodLim", SetOutcome.accept)], []⟩)]).1 =
      Except.ok [("EC2", ⟨[("GoodLim", SetOutcome.accept)], [("GoodLim", 2)]⟩)] ∧
    LogEntry.criticalUnknownService "Foo" ∈
      (update_services [("Foo", [("L", 3)]), ("EC2", [("GoodLim", 2)])]
        [("EC2", ⟨[("GoodLim", SetOutcome.accept)], []⟩)]).2 := by
  constructor
  · rfl
  · exact (ta_C6_unknown_service_skipped
      [("Foo", [("L", 3)]), ("EC2", [("GoodLim", 2)])]
      [("EC2", ⟨[("GoodLim", SetOutcome.accept)], []⟩)]).2
      [("EC2", ⟨[("GoodLim", SetOutcome.accept)], [("GoodLim", 2)]⟩)] rfl
      "Foo" (by decide) rfl

/-- C7: in the per-limit loop of a known service, an entry whose
`_set_ta_limit` raises `ValueError` (UnknownLimitError) is skipped with a
logged warning while the remaining limits are still processed on the
unchanged service object, and an accepted entry is applied and processing
continues on the updated object — no abort in either case. -/
theorem ta_C7_unknown_limit_skipped :
    ∀ (svcName : String) (service : Service) (limits : List (String × Int))
      (lims : List String) (lim : String),
    (service.setTaLimit lim ((dictLookup limits lim).getD 0) = .error .valueError →
      applyLimits svcName service limits (lim :: lims) =
        ((applyLimits svcName service limits lims).1,
          LogEntry.warningUnknownLimit lim svcName ::
            (applyLimits svcName service limits lims).2)) ∧
    (∀ s' : Service,
      service.setTaLimit lim ((dictLookup limits lim).getD 0) = .ok s' →
      applyLimits svcName service limits (lim :: lims) =
        applyLimits svcName s' limits lims) :=
  fun svcName service limits lims lim =>
    ⟨applyLimits_skip_valueError svcName service limits lims lim,
     fun s' h => applyLimits_apply_ok svcName service s' limits lims lim h⟩

/-- C7 witness: a service that rejects `"BadLim"` but accepts
`"GoodLim"` ends with only `"GoodLim"` applied and a warning naming
`"BadLim"`. -/
theorem ta_C7_unknown_limit_skipped_witness :
    applyLimits "EC2" ⟨[("GoodLim", SetOutcome.accept)], []⟩
        [("BadLim", 1), ("GoodLim", 2)] ["BadLim", "GoodLim"] =
      (.ok ⟨[("GoodLim", SetOutcome.accept)], [("GoodLim", 2)]⟩,
        [LogEntry.warningUnknownLimit "BadLim" "EC2"]) := by
  rw [(ta_C7_unknown_limit_skipped "EC2" ⟨[("GoodLim", SetOutcome.accept)], []⟩
    [("BadLim", 1), ("GoodLim", 2)] ["GoodLim"] "BadLim").1 rfl]
  rfl

/-- C8: `_update_services` iterates `sorted(ta_results.keys())` (and,
per service, `sorted(limits.keys())`, the same `sortStr` in `goServices`):
the iteration order is sorted ascending, is a permutation of the map's
keys, and depends only on the key multiset, not on map insertion or
iteration order; `["Zeta","Alpha"]` is processed as
`["Alpha","Zeta"]`. -/
theorem ta_C8_sorted_order :
    (∀ (ta : LimitUpdateMap) (services : Registry),
      update_services ta services =
        goServices ta (sortStr (dictKeys ta)) services) ∧
    (∀ l : List String, (sortStr l).Sorted (· ≤ ·) ∧ (sortStr l).Perm l) ∧
    (∀ l1 l2 : List String, l1.Perm l2 → sortStr l1 = sortStr l2) ∧
    sortStr ["Zeta", "Alpha"] = ["Alpha", "Zeta"] :=
  ⟨fun _ _ => rfl, fun l => ⟨sortStr_sorted l, sortStr_perm l⟩,
   fun _ _ h => sortStr_eq_of_perm h, by decide⟩

/-- C8 witness: the two insertion orders of `{"Zeta","Alpha"}` yield the
same processing order. -/
theorem ta_C8_sorted_order_witness :
    sortStr ["Zeta", "Alpha"] = sortStr ["Alpha", "Zeta"] :=
  ta_C8_sorted_order.2.2.1 ["Zeta", "Alpha"] ["Alpha", "Zeta"]
    (List.Perm.swap "Alpha" "Zeta" [])

/-- C9: if a retained row projecting to `(svc, lim, amt)` is followed
only by rows that are discarded or project to a different (service, limit)
pair, the completed poll map holds `amt` at `(svc, lim)` — the last write
wins, with no deduplication. -/
theorem ta_C9_last_write_wins :
    ∀ (fields : List String) (region : String)
      (pre suf : List FlaggedResource) (res m : LimitUpdateMap)
      (row : FlaggedResource) (svc lim : String) (amt : Int),
    pollRows fields region (pre ++ row :: suf) res = .ok m →
    row.region = region →
    projectRow fields row = .ok (svc, lim, amt) →
    (∀ r ∈ suf, r.region = region →
      ∀ s l b, projectRow fields r = .ok (s, l, b) → ¬(s = svc ∧ l = lim)) →
    lookup2 m svc lim = some amt := by
  intro fields region pre suf res m row svc lim amt hpoll hr hproj hsuf
  rw [pollRows_append] at hpoll
  cases hpre : pollRows fields region pre res with
  | error e =>
    rw [hpre] at hpoll
    exact Except.noConfusion hpoll
  | ok m1 =>
    rw [hpre] at hpoll
    replace hpoll : pollRows fields region (row :: suf) m1 = .ok m := hpoll
    rw [pollRows, if_pos hr, hproj] at hpoll
    replace hpoll :
        pollRows fields region suf (insert2 m1 svc lim amt) = .ok m := hpoll
    rw [pollRows_lookup2_preserved fields region svc lim suf _ m hpoll hsuf]
    exact lookup2_insert2_self m1 svc lim amt

/-- C9 witness: two retained rows for the same `(EC2, Lim)` pair with
amounts 10 then 20 leave 20 in the map. -/
theorem ta_C9_last_write_wins_witness :
    lookup2 [("EC2", [("Lim", 20)])] "EC2" "Lim" = some 20 := by
  have h := ta_C9_last_write_wins ["Region", "Service", "Limit Name", "Limit Amount"]
    "us-east-1" [⟨"us-east-1", ["us-east-1", "EC2", "Lim", "10"]⟩] []
    [] [("EC2", [("Lim", 20)])] ⟨"us-east-1", ["us-east-1", "EC2", "Lim", "20"]⟩
    "EC2" "Lim" 20 rfl rfl rfl (by simp)
  exact h

/-- C10: the `except ValueError` in `_update_services` swallows every
`ValueError` from `_set_ta_limit` whatever its cause (the entry is skipped
and the loop continues), while an exception of any other class aborts the
limit loop at once and propagates out of `update_services`. -/
theorem ta_C10_valueError_swallowed :
    ∀ (svcName : String) (service : Service) (limits : List (String × Int))
      (lims : List String) (lim : String),
    (service.setTaLimit lim ((dictLookup limits lim).getD 0) = .error .valueError →
      (applyLimits svcName service limits (lim :: lims)).1 =
        (applyLimits svcName service limits lims).1) ∧
    (∀ e : PyErr, e ≠ .valueError →
      service.setTaLimit lim ((dictLookup limits lim).getD 0) = .error e →
      applyLimits svcName service limits (lim :: lims) = (.error e, [])) ∧
    (∀ (limits0 : List (String × Int)) (e : PyErr) (logs : List LogEntry),
      applyLimits svcName service limits0 (sortStr (dictKeys limits0)) =
        (.error e, logs) →
      (update_services [(svcName, limits0)] [(svcName, service)]).1 = .error e) := by
  intro svcName service limits lims lim
  refine ⟨?_, ?_, ?_⟩
  · intro h
    rw [applyLimits_skip_valueError svcName service limits lims lim h]
  · intro e he h
    exact applyLimits_propagate svcName service limits lims lim e he h
  · intro limits0 e logs h
    exact update_services_singleton_propagate svcName limits0 service e logs h

/-- C10 witness: a `ValueError`-raising limit is swallowed, a
`TypeError`-raising one propagates, also out of `update_services`. -/
theorem ta_C10_valueError_swallowed_witness :
    (applyLimits "EC2"
        ⟨[("L1", SetOutcome.raise .valueError), ("L2", SetOutcome.raise .typeError)], []⟩
        [("L1", 1), ("L2", 2)] ["L1", "L2"]).1 = .error .typeError ∧
    applyLimits "EC2"
        ⟨[("L1", SetOutcome.raise .valueError), ("L2", SetOutcome.raise .typeError)], []⟩
        [("L1", 1), ("L2", 2)] ["L2"] = (.error .typeError, []) ∧
    (update_services [("EC2", [("L2", 2)])]
        [("EC2", ⟨[("L2", SetOutcome.raise .typeError)], []⟩)]).1 =
      .error .typeError := by
  refine ⟨?_, ?_, ?_⟩
  · rw [(ta_C10_valueError_swallowed "EC2"
      ⟨[("L1", SetOutcome.raise .valueError), ("L2", SetOutcome.raise .typeError)], []⟩
      [("L1", 1), ("L2", 2)] ["L2"] "L1").1 rfl]
    rfl
  · exact (ta_C10_valueError_swallowed "EC2"
      ⟨[("L1", SetOutcome.raise .valueError), ("L2", SetOutcome.raise .typeError)], []⟩
      [("L1", 1), ("L2", 2)] [] "L2").2.1 .typeError (by decide) rfl
  · exact (ta_C10_valueError_swallowed "EC2"
      ⟨[("L2", SetOutcome.raise .typeError)], []⟩ [] [] "L2").2.2
      [("L2", 2)] .typeError [] rfl
